import Mathlib

/-!
Shallow embedding of the distributed-calculator server core.

Source files embedded here:
- `src/protocol.rs` (`Protocol`, `Protocol::from_bytes`, `Protocol::from_str`,
  `Protocol::to_bytes`, `Protocol::fmt`)
- `src/bin/server/operation.rs` (`Operation`, `Operation::from_str`)
- `src/bin/server/calculator.rs` (`Calculator`, `Calculator::apply`,
  `Calculator::accumulation`)
- `src/bin/server/handle_client.rs` (`handle_connection`,
  `handle_operation_message`, `handle_get_message`, `apply_operation`,
  `get_value`)

Modelling conventions:
- Rust text (`String` / `&str`) is a `List Nat` of Unicode scalar values.
- Byte buffers (`&[u8]` / `Vec<u8>`) are a `List Nat` of values `< 256`.
- `u8` arithmetic is `Nat` arithmetic taken `% 256`.
- The `Arc<Mutex<Calculator>>` shared by the handlers is a record holding the
  register together with the lock's poison flag; `Mutex::lock` returning
  `Err(PoisonError)` is the `poisoned = true` branch.
- Network writes are assumed to succeed: the per-connection loop is a pure
  function from the list of received lines to the list of responses sent.
-/

deriving instance DecidableEq for Except

/-- The scalar values of a Lean string literal: used to write Rust string
literals in this development. -/
def str (s : String) : List Nat := s.data.map Char.toNat

/-- Rust `char::is_whitespace`: the Unicode `White_Space` property. -/
def isRustWhitespace (c : Nat) : Bool :=
  (9 ≤ c && c ≤ 13) || c = 32 || c = 0x85 || c = 0xA0 || c = 0x1680 ||
  (0x2000 ≤ c && c ≤ 0x200A) || c = 0x2028 || c = 0x2029 || c = 0x202F ||
  c = 0x205F || c = 0x3000

/-- Worker for `splitWhitespace`: `cur` is the reversed token currently being
scanned. -/
def splitWSAux : List Nat → List Nat → List (List Nat)
  | [], cur => if cur = [] then [] else [cur.reverse]
  | c :: cs, cur =>
    if isRustWhitespace c then
      if cur = [] then splitWSAux cs []
      else cur.reverse :: splitWSAux cs []
    else splitWSAux cs (c :: cur)

/-- Rust `str::split_whitespace` (collected to a vector): splits on runs of
Unicode whitespace, discarding empty pieces. -/
def splitWhitespace (s : List Nat) : List (List Nat) :=
  splitWSAux s []

/-- Rust `str::trim_end`: remove trailing Unicode whitespace. -/
def trimEnd (s : List Nat) : List Nat :=
  ((s.reverse).dropWhile isRustWhitespace).reverse

/-- Rust `Vec<&str>::join(" ")`. -/
def joinSpace : List (List Nat) → List Nat
  | [] => []
  | [t] => t
  | t :: ts => t ++ str " " ++ joinSpace ts

/-- Decimal digit list of a natural number (fuelled so that it reduces in the
kernel); `fuel` must exceed the number of digits. -/
def natDigitsAux : Nat → Nat → List Nat
  | 0, _ => []
  | fuel + 1, n => if n < 10 then [48 + n] else natDigitsAux fuel (n / 10) ++ [48 + n % 10]

/-- Rust `u8::to_string` / `{}` formatting of an unsigned integer: decimal
digits, no sign, no padding. -/
def natDigits (n : Nat) : List Nat := natDigitsAux (n + 1) n

/-- Display text of `ParseIntError { kind: Empty }`. -/
def msgIntEmpty : List Nat := str "cannot parse integer from empty string"

/-- Display text of `ParseIntError { kind: InvalidDigit }`. -/
def msgIntInvalidDigit : List Nat := str "invalid digit found in string"

/-- Display text of `ParseIntError { kind: PosOverflow }`. -/
def msgIntPosOverflow : List Nat := str "number too large to fit in target type"

/-- Digit-accumulation loop of `u8::from_str` (radix 10): per character,
`to_digit(10)` then checked multiply and add against the `u8` maximum. -/
def parseU8Digits : List Nat → Nat → Except (List Nat) Nat
  | [], acc => .ok acc
  | c :: cs, acc =>
    if 48 ≤ c ∧ c ≤ 57 then
      let d := c - 48
      if acc * 10 + d > 255 then .error msgIntPosOverflow
      else parseU8Digits cs (acc * 10 + d)
    else .error msgIntInvalidDigit

/-- Rust `u8::from_str` (`operand.parse::<u8>()`): empty input is an error, a
single leading `+` is allowed (but must be followed by digits), any
non-decimal-digit character (including `-`) is `InvalidDigit`, and values
above 255 are `PosOverflow`. Errors carry the `ParseIntError` display text. -/
def parseU8 (s : List Nat) : Except (List Nat) Nat :=
  match s with
  | [] => .error msgIntEmpty
  | c :: cs =>
    if c = 43 then
      match cs with
      | [] => .error msgIntInvalidDigit
      | _ => parseU8Digits cs 0
    else parseU8Digits s 0

/-- `Operation` from `src/bin/server/operation.rs`. -/
inductive Operation
  | Add (n : Nat)
  | Sub (n : Nat)
  | Mul (n : Nat)
  | Div (n : Nat)
deriving DecidableEq, Repr

/-- `Operation::from_str` from `src/bin/server/operation.rs`: split on
whitespace, require exactly two tokens, parse the operand as `u8`, then match
the operator; `/` additionally rejects a zero operand before constructing
`Div`. Errors are the strings the Rust code produces. -/
def Operation.fromStr (tokens : List Nat) : Except (List Nat) Operation :=
  match splitWhitespace tokens with
  | [operation, operand] =>
    match parseU8 operand with
    | .error e => .error (str "parsing error: invalid integer: " ++ e)
    | .ok n =>
      if operation = str "+" then .ok (Operation.Add n)
      else if operation = str "-" then .ok (Operation.Sub n)
      else if operation = str "*" then .ok (Operation.Mul n)
      else if operation = str "/" then
        if n = 0 then .error (str "division by zero") else .ok (Operation.Div n)
      else .error (str "parsing error: unknown operation: " ++ operation)
  | _ => .error (str "expected 2 arguments")

/-- `Calculator::apply` from `src/bin/server/calculator.rs`, on the `u8`
register represented as a `Nat` (kept `< 256`): `wrapping_add`,
`wrapping_sub`, `wrapping_mul`, and `wrapping_div` (plain truncating division;
the Rust version panics on a zero divisor, which the parser rules out). -/
def Calculator.apply (acc : Nat) : Operation → Nat
  | .Add n => (acc + n) % 256
  | .Sub n => (acc + (256 - n % 256)) % 256
  | .Mul n => (acc * n) % 256
  | .Div n => acc / n

/-- UTF-8 encoding of one Unicode scalar value (`str::as_bytes` /
`String::into_bytes`, per scalar). -/
def utf8EncodeChar (c : Nat) : List Nat :=
  if c < 0x80 then [c]
  else if c < 0x800 then [0xC0 + c / 64, 0x80 + c % 64]
  else if c < 0x10000 then [0xE0 + c / 4096, 0x80 + c / 64 % 64, 0x80 + c % 64]
  else [0xF0 + c / 262144, 0x80 + c / 4096 % 64, 0x80 + c / 64 % 64, 0x80 + c % 64]

/-- UTF-8 encoding of a text (`str::as_bytes` / `String::into_bytes`). -/
def utf8Encode (s : List Nat) : List Nat :=
  (s.map utf8EncodeChar).flatten

/-- Display text of `Utf8Error` with `error_len = Some n` at byte `i`. -/
def msgUtf8Invalid (n i : Nat) : List Nat :=
  str "invalid utf-8 sequence of " ++ natDigits n ++ str " bytes from index " ++ natDigits i

/-- Display text of `Utf8Error` with `error_len = None` at byte `i`. -/
def msgUtf8Incomplete (i : Nat) : List Nat :=
  str "incomplete utf-8 byte sequence from index " ++ natDigits i

/-- Is `b` a UTF-8 continuation byte (`0x80..=0xBF`)? -/
def utf8IsCont (b : Nat) : Bool := 0x80 ≤ b && b ≤ 0xBF

/-- Valid second bytes of a three-byte sequence headed by `b0`, per
`core::str::validations::run_utf8_validation`. -/
def utf8Valid3Second (b0 b1 : Nat) : Bool :=
  if b0 = 0xE0 then 0xA0 ≤ b1 && b1 ≤ 0xBF
  else if b0 = 0xED then 0x80 ≤ b1 && b1 ≤ 0x9F
  else utf8IsCont b1

/-- Valid second bytes of a four-byte sequence headed by `b0`. -/
def utf8Valid4Second (b0 b1 : Nat) : Bool :=
  if b0 = 0xF0 then 0x90 ≤ b1 && b1 ≤ 0xBF
  else if b0 = 0xF4 then 0x80 ≤ b1 && b1 ≤ 0x8F
  else utf8IsCont b1

/-- The validation loop of `std::str::from_utf8` (which `Protocol::from_bytes`
calls), fused with scalar extraction: on success the decoded scalar values, on
failure the display text of the returned `Utf8Error` (`valid_up_to` is the
start index `i` of the offending sequence, `error_len` follows the reference
validator). -/
def utf8DecodeLoop : List Nat → Nat → List Nat → Except (List Nat) (List Nat)
  | [], _, acc => .ok acc.reverse
  | b :: rest, i, acc =>
    if b < 0x80 then utf8DecodeLoop rest (i + 1) (b :: acc)
    else if 0xC2 ≤ b && b ≤ 0xDF then
      match rest with
      | [] => .error (msgUtf8Incomplete i)
      | b1 :: rest1 =>
        if utf8IsCont b1 then
          utf8DecodeLoop rest1 (i + 2) (((b - 0xC0) * 64 + (b1 - 0x80)) :: acc)
        else .error (msgUtf8Invalid 1 i)
    else if 0xE0 ≤ b && b ≤ 0xEF then
      match rest with
      | [] => .error (msgUtf8Incomplete i)
      | b1 :: rest1 =>
        if utf8Valid3Second b b1 then
          match rest1 with
          | [] => .error (msgUtf8Incomplete i)
          | b2 :: rest2 =>
            if utf8IsCont b2 then
              utf8DecodeLoop rest2 (i + 3)
                (((b - 0xE0) * 4096 + (b1 - 0x80) * 64 + (b2 - 0x80)) :: acc)
            else .error (msgUtf8Invalid 2 i)
        else .error (msgUtf8Invalid 1 i)
    else if 0xF0 ≤ b && b ≤ 0xF4 then
      match rest with
      | [] => .error (msgUtf8Incomplete i)
      | b1 :: rest1 =>
        if utf8Valid4Second b b1 then
          match rest1 with
          | [] => .error (msgUtf8Incomplete i)
          | b2 :: rest2 =>
            if utf8IsCont b2 then
              match rest2 with
              | [] => .error (msgUtf8Incomplete i)
              | b3 :: rest3 =>
                if utf8IsCont b3 then
                  utf8DecodeLoop rest3 (i + 4)
                    (((b - 0xF0) * 262144 + (b1 - 0x80) * 4096 +
                      (b2 - 0x80) * 64 + (b3 - 0x80)) :: acc)
                else .error (msgUtf8Invalid 3 i)
            else .error (msgUtf8Invalid 2 i)
        else .error (msgUtf8Invalid 1 i)
    else .error (msgUtf8Invalid 1 i)

/-- `std::str::from_utf8`: decoded text, or the `Utf8Error` display text. -/
def utf8Decode (bytes : List Nat) : Except (List Nat) (List Nat) :=
  utf8DecodeLoop bytes 0 []

/-- `Protocol` from `src/protocol.rs` (the misspelling `SynthaxError` is the
source's). -/
inductive Protocol
  | Operation (args : List Nat)
  | Get
  | Ok
  | ErrorOperation (args : List Nat)
  | Value (val : List Nat)
  | SynthaxError (msg : List Nat)
deriving DecidableEq, Repr

/-- `Protocol::from_str` from `src/protocol.rs`: ordered match over the token
vector. `["OP", a, b]` is an operation request carrying the two arguments
joined by a space, `["GET"]` / `["OK"]` are bare keywords, `["ERROR", ...]`
joins the remaining tokens, `["VALUE", v]` carries the single value, and
everything else is a syntax error carrying the tokens rejoined by spaces. -/
def Protocol.fromStr (message : List (List Nat)) : Protocol :=
  match message with
  | [] => Protocol.SynthaxError (joinSpace [])
  | t :: rest =>
    if t = str "OP" ∧ rest.length = 2 then Protocol.Operation (joinSpace rest)
    else if t = str "GET" ∧ rest = [] then Protocol.Get
    else if t = str "OK" ∧ rest = [] then Protocol.Ok
    else if t = str "ERROR" then Protocol.ErrorOperation (joinSpace rest)
    else
      match rest with
      | [only] =>
        if t = str "VALUE" then Protocol.Value only
        else Protocol.SynthaxError (joinSpace (t :: rest))
      | _ => Protocol.SynthaxError (joinSpace (t :: rest))

/-- `Protocol::from_bytes` from `src/protocol.rs`: attempt UTF-8 decoding; on
success split on whitespace and delegate to `Protocol.fromStr`; on failure
return `SynthaxError` with the `Utf8Error` display text. -/
def Protocol.fromBytes (bytes : List Nat) : Protocol :=
  match utf8Decode bytes with
  | .ok message => Protocol.fromStr (splitWhitespace message)
  | .error message => Protocol.SynthaxError message

/-- `Protocol::to_bytes` from `src/protocol.rs`: every variant except
`SynthaxError` serializes as its keyword line ending in a newline (`ERROR`
wraps its payload in double quotes); `SynthaxError` is its payload verbatim. -/
def Protocol.toBytes : Protocol → List Nat
  | Protocol.Operation args => utf8Encode (str "OP " ++ args ++ str "\n")
  | Protocol.Get => utf8Encode (str "GET\n")
  | Protocol.Ok => utf8Encode (str "OK\n")
  | Protocol.ErrorOperation args => utf8Encode (str "ERROR \"" ++ args ++ str "\"\n")
  | Protocol.Value val => utf8Encode (str "VALUE " ++ val ++ str "\n")
  | Protocol.SynthaxError val => utf8Encode val

/-- `impl fmt::Display for Protocol` (`Protocol::fmt`) from `src/protocol.rs`:
the same text as `to_bytes`, kept as text. -/
def Protocol.display : Protocol → List Nat
  | Protocol.Operation args => str "OP " ++ args ++ str "\n"
  | Protocol.Get => str "GET\n"
  | Protocol.Ok => str "OK\n"
  | Protocol.ErrorOperation args => str "ERROR \"" ++ args ++ str "\"\n"
  | Protocol.Value val => str "VALUE " ++ val ++ str "\n"
  | Protocol.SynthaxError args => args

/-- `ServerError` from `src/bin/server/server_error.rs`. -/
inductive ServerError
  | MissingArgument
  | InvalidArgument
  | FailedConnection
  | BindFailed
  | WriteFailed
  | PoisonError
  | ReadFailed
deriving DecidableEq, Repr

/-- The `Arc<Mutex<Calculator>>` shared state seen by one connection handler:
the `u8` register of `Calculator` (`accumulation`, kept `< 256`) together
with the mutex's poison flag. `Mutex::lock` succeeds exactly when
`poisoned = false`. -/
structure SharedCalc where
  poisoned : Bool
  accumulation : Nat
deriving DecidableEq, Repr

/-- `apply_operation` from `src/bin/server/handle_client.rs`: lock the
calculator and apply the operation; a poisoned lock is `ServerError::PoisonError`. -/
def apply_operation (calculator : SharedCalc) (operation : Operation) :
    Except ServerError SharedCalc :=
  if calculator.poisoned then .error ServerError.PoisonError
  else .ok { calculator with accumulation := Calculator.apply calculator.accumulation operation }

/-- `get_value` from `src/bin/server/handle_client.rs`: lock the calculator
and read `Calculator::accumulation`; a poisoned lock is `PoisonError`. -/
def get_value (calculator : SharedCalc) : Except ServerError Nat :=
  if calculator.poisoned then .error ServerError.PoisonError
  else .ok calculator.accumulation

/-- `handle_operation_message` from `src/bin/server/handle_client.rs`: parse
the carried arguments; on parse failure reply `ErrorOperation` with the parse
error text (state untouched); on success apply the operation (fatal on a
poisoned lock) and reply `Ok`. The reply returned here is what `send_protocol`
writes to the stream. -/
def handle_operation_message (calculator : SharedCalc) (args : List Nat) :
    Except ServerError (SharedCalc × Protocol) :=
  match Operation.fromStr args with
  | .error e => .ok (calculator, Protocol.ErrorOperation e)
  | .ok op =>
    match apply_operation calculator op with
    | .error e => .error e
    | .ok calculator1 => .ok (calculator1, Protocol.Ok)

/-- `handle_get_message` from `src/bin/server/handle_client.rs`: read the
value (fatal on a poisoned lock) and reply `VALUE` with its decimal text. -/
def handle_get_message (calculator : SharedCalc) :
    Except ServerError (SharedCalc × Protocol) :=
  match get_value calculator with
  | .error e => .error e
  | .ok value => .ok (calculator, Protocol.Value (natDigits value))

/-- One iteration of the `handle_connection` read loop from
`src/bin/server/handle_client.rs`, for one received line: trim trailing
whitespace, decode the bytes, and dispatch. Any decoded kind other than an
operation or a get request is answered with
`ErrorOperation` of "unexpected message: " followed by the
`Display` text of the decoded message. -/
def handleLine (calculator : SharedCalc) (line : List Nat) :
    Except ServerError (SharedCalc × Protocol) :=
  match Protocol.fromBytes (utf8Encode (trimEnd line)) with
  | Protocol.Operation args => handle_operation_message calculator args
  | Protocol.Get => handle_get_message calculator
  | protocol =>
    .ok (calculator, Protocol.ErrorOperation (str "unexpected message: " ++ protocol.display))

/-- `handle_connection` from `src/bin/server/handle_client.rs`, as a pure
function from the list of lines read from the peer (each as delivered by
`read_line`, trailing newline included) to the list of responses written, the
final shared state, and the loop's exit result (`Ok(())` at end of stream,
the fatal `ServerError` otherwise). Writes are assumed to succeed. -/
def handle_connection (calculator : SharedCalc) :
    List (List Nat) → List Protocol × Except ServerError SharedCalc
  | [] => ([], .ok calculator)
  | line :: rest =>
    match handleLine calculator line with
    | .error e => ([], .error e)
    | .ok (calculator1, response) =>
      let tail := handle_connection calculator1 rest
      (response :: tail.1, tail.2)

/-- A Unicode scalar value (what a Rust `char` may hold): below the surrogate
range or between it and `0x110000`. -/
def validScalar (v : Nat) : Bool :=
  v < 0xD800 || (0xE000 ≤ v && v < 0x110000)

/-- Every scalar of the text is valid (true of every Rust `String`). -/
def validText (s : List Nat) : Bool := s.all validScalar

/-- A payload token in canonical form: nonempty, free of whitespace, and made
of genuine scalar values. -/
def niceToken (t : List Nat) : Bool :=
  !t.isEmpty && t.all (fun c => !isRustWhitespace c && validScalar c)

/-- A valid operation in the sense of the spec: a `u8` operand, and a non-zero
divisor for division. -/
def validOp : Operation → Bool
  | .Add n => decide (n < 256)
  | .Sub n => decide (n < 256)
  | .Mul n => decide (n < 256)
  | .Div n => decide (n < 256) && decide (n ≠ 0)

/-- The argument text the protocol layer hands to `Operation::from_str` for an
operation: operator symbol, one space, decimal operand. -/
def opArgs : Operation → List Nat
  | .Add n => str "+ " ++ natDigits n
  | .Sub n => str "- " ++ natDigits n
  | .Mul n => str "* " ++ natDigits n
  | .Div n => str "/ " ++ natDigits n

/-- The wire line a client sends for an operation: the `OP` keyword line,
newline-terminated, as read by the server's `read_line`. -/
def wireLine (op : Operation) : List Nat :=
  str "OP " ++ opArgs op ++ str "\n"

example : Calculator.apply 250 (.Add 10) = 4 := by decide

example : Calculator.apply 0 (.Sub 5) = 251 := by decide

example : Operation.fromStr (str "+ 10") = .ok (.Add 10) := by decide

example : Operation.fromStr (str "+") = .error (str "expected 2 arguments") := by decide

example : Operation.fromStr (str "+ 10 20") = .error (str "expected 2 arguments") := by decide

example : Operation.fromStr (str "+ ten") =
    .error (str "parsing error: invalid integer: invalid digit found in string") := by decide

example : Operation.fromStr (str "+ 300") =
    .error (str "parsing error: invalid integer: number too large to fit in target type") := by decide

example : Operation.fromStr (str "% 10") =
    .error (str "parsing error: unknown operation: %") := by decide

example : Operation.fromStr (str "/ 0") = .error (str "division by zero") := by decide

example : utf8Decode (utf8Encode (str "OP ADD 5")) = .ok (str "OP ADD 5") := by decide

example : utf8Decode [0xFF, 0xFF, 0xFF] =
    .error (str "invalid utf-8 sequence of 1 bytes from index 0") := by decide

example : utf8Decode (utf8Encode (str "añé€")) = .ok (str "añé€") := by decide

example : Protocol.fromBytes (utf8Encode (str "GET\n")) = Protocol.Get := by decide

example : Protocol.fromBytes (utf8Encode (str "OP ADD 5\n")) =
    Protocol.Operation (str "ADD 5") := by decide

example : Protocol.fromBytes (utf8Encode (str "OP ADD\n")) =
    Protocol.SynthaxError (str "OP ADD") := by decide

example : Protocol.fromBytes [0xFF, 0xFF, 0xFF] =
    Protocol.SynthaxError (str "invalid utf-8 sequence of 1 bytes from index 0") := by decide

example : (Protocol.Operation (str "ADD 5")).toBytes = utf8Encode (str "OP ADD 5\n") := by decide

example : handle_connection ⟨false, 0⟩ [str "OP + 1\n", str "GET\n"] =
    ([Protocol.Ok, Protocol.Value (str "1")], .ok ⟨false, 1⟩) := by decide

example : handle_connection ⟨false, 0⟩ [str "OPERATION + 1\n", str "GET\n"] =
    ([Protocol.ErrorOperation (str "unexpected message: OPERATION + 1"),
      Protocol.Value (str "0")], .ok ⟨false, 0⟩) := by decide

example : handle_connection ⟨false, 0⟩ [str "hola\n", str "GET\n"] =
    ([Protocol.ErrorOperation (str "unexpected message: hola"),
      Protocol.Value (str "0")], .ok ⟨false, 0⟩) := by decide

example : handle_connection ⟨false, 0⟩ [str "OK\n"] =
    ([Protocol.ErrorOperation (str "unexpected message: OK\n")], .ok ⟨false, 0⟩) := by decide

example : handle_connection ⟨true, 7⟩ [str "GET\n"] =
    ([], .error ServerError.PoisonError) := by decide

lemma utf8DecodeLoop_encodeChar (v : Nat) (hv : validScalar v = true)
    (rest : List Nat) (i : Nat) (acc : List Nat) :
    utf8DecodeLoop (utf8EncodeChar v ++ rest) i acc =
      utf8DecodeLoop rest (i + (utf8EncodeChar v).length) (v :: acc) := by
  simp only [validScalar, Bool.or_eq_true, Bool.and_eq_true, decide_eq_true_eq] at hv
  by_cases h1 : v < 0x80
  · simp only [utf8EncodeChar, if_pos h1, List.cons_append, List.nil_append,
      List.length_cons, List.length_nil, Nat.zero_add]
    conv_lhs => rw [utf8DecodeLoop.eq_def]
    simp [h1]
  · by_cases h2 : v < 0x800
    · simp only [utf8EncodeChar, if_neg h1, if_pos h2, List.cons_append, List.nil_append,
        List.length_cons, List.length_nil, Nat.zero_add]
      conv_lhs => rw [utf8DecodeLoop.eq_def]
      have c1 : ¬ (0xC0 + v / 64 < 0x80) := by omega
      have c2 : (0xC2 ≤ 0xC0 + v / 64 && 0xC0 + v / 64 ≤ 0xDF) = true := by
        simp only [Bool.and_eq_true, decide_eq_true_eq]; omega
      have c3 : utf8IsCont (0x80 + v % 64) = true := by
        simp only [utf8IsCont, Bool.and_eq_true, decide_eq_true_eq]; omega
      have cv : (0xC0 + v / 64 - 0xC0) * 64 + (0x80 + v % 64 - 0x80) = v := by omega
      simp [c1, c2, c3, cv]
      rw [show v / 64 * 64 + v % 64 = v by omega]
    · by_cases h3 : v < 0x10000
      · simp only [utf8EncodeChar, if_neg h1, if_neg h2, if_pos h3, List.cons_append,
          List.nil_append, List.length_cons, List.length_nil, Nat.zero_add]
        conv_lhs => rw [utf8DecodeLoop.eq_def]
        have c1 : ¬ (0xE0 + v / 4096 < 0x80) := by omega
        have c2 : (0xC2 ≤ 0xE0 + v / 4096 && 0xE0 + v / 4096 ≤ 0xDF) = false := by
          simp only [Bool.and_eq_false_iff, decide_eq_false_iff_not]; omega
        have c3 : (0xE0 ≤ 0xE0 + v / 4096 && 0xE0 + v / 4096 ≤ 0xEF) = true := by
          simp only [Bool.and_eq_true, decide_eq_true_eq]; omega
        have c4 : utf8Valid3Second (0xE0 + v / 4096) (0x80 + v / 64 % 64) = true := by
          simp only [utf8Valid3Second, utf8IsCont]
          by_cases hq0 : v / 4096 = 0
          · rw [if_pos (by omega)]
            simp only [Bool.and_eq_true, decide_eq_true_eq]
            omega
          · by_cases hq13 : v / 4096 = 13
            · rw [if_neg (by omega), if_pos (by omega)]
              simp only [Bool.and_eq_true, decide_eq_true_eq]
              omega
            · rw [if_neg (by omega), if_neg (by omega)]
              simp only [Bool.and_eq_true, decide_eq_true_eq]
              omega
        have c5 : utf8IsCont (0x80 + v % 64) = true := by
          simp only [utf8IsCont, Bool.and_eq_true, decide_eq_true_eq]; omega
        have cv : (0xE0 + v / 4096 - 0xE0) * 4096 + (0x80 + v / 64 % 64 - 0x80) * 64 +
            (0x80 + v % 64 - 0x80) = v := by omega
        simp [c1, c2, c3, c4, c5, cv]
        rw [if_pos (show 0xE0 + v / 4096 ≤ 0xEF by omega),
          show v / 4096 * 4096 + v / 64 % 64 * 64 + v % 64 = v by omega]
      · simp only [utf8EncodeChar, if_neg h1, if_neg h2, if_neg h3, List.cons_append,
          List.nil_append, List.length_cons, List.length_nil, Nat.zero_add]
        conv_lhs => rw [utf8DecodeLoop.eq_def]
        have c1 : ¬ (0xF0 + v / 262144 < 0x80) := by omega
        have c2 : (0xC2 ≤ 0xF0 + v / 262144 && 0xF0 + v / 262144 ≤ 0xDF) = false := by
          simp only [Bool.and_eq_false_iff, decide_eq_false_iff_not]; omega
        have c3 : (0xE0 ≤ 0xF0 + v / 262144 && 0xF0 + v / 262144 ≤ 0xEF) = false := by
          simp only [Bool.and_eq_false_iff, decide_eq_false_iff_not]; omega
        have c4 : (0xF0 ≤ 0xF0 + v / 262144 && 0xF0 + v / 262144 ≤ 0xF4) = true := by
          simp only [Bool.and_eq_true, decide_eq_true_eq]; omega
        have c5 : utf8Valid4Second (0xF0 + v / 262144) (0x80 + v / 4096 % 64) = true := by
          simp only [utf8Valid4Second, utf8IsCont]
          by_cases hq0 : v / 262144 = 0
          · rw [if_pos (by omega)]
            simp only [Bool.and_eq_true, decide_eq_true_eq]
            omega
          · by_cases hq4 : v / 262144 = 4
            · rw [if_neg (by omega), if_pos (by omega)]
              simp only [Bool.and_eq_true, decide_eq_true_eq]
              omega
            · rw [if_neg (by omega), if_neg (by omega)]
              simp only [Bool.and_eq_true, decide_eq_true_eq]
              omega
        have c6 : utf8IsCont (0x80 + v / 64 % 64) = true := by
          simp only [utf8IsCont, Bool.and_eq_true, decide_eq_true_eq]; omega
        have c7 : utf8IsCont (0x80 + v % 64) = true := by
          simp only [utf8IsCont, Bool.and_eq_true, decide_eq_true_eq]; omega
        have cv : (0xF0 + v / 262144 - 0xF0) * 262144 + (0x80 + v / 4096 % 64 - 0x80) * 4096 +
            (0x80 + v / 64 % 64 - 0x80) * 64 + (0x80 + v % 64 - 0x80) = v := by omega
        simp [c1, c2, c3, c4, c5, c6, c7, cv]
        rw [if_pos (show 0xF0 + v / 262144 ≤ 0xF4 by omega),
          show v / 262144 * 262144 + v / 4096 % 64 * 4096 + v / 64 % 64 * 64 + v % 64 = v by omega]

lemma utf8DecodeLoop_encode (s : List Nat) :
    ∀ (i : Nat) (acc : List Nat), validText s = true →
      utf8DecodeLoop (utf8Encode s) i acc = .ok (acc.reverse ++ s) := by
  induction s with
  | nil => intro i acc _; simp [utf8Encode, utf8DecodeLoop]
  | cons v s ih =>
    intro i acc h
    simp only [validText, List.all_cons, Bool.and_eq_true] at h
    have henc : utf8Encode (v :: s) = utf8EncodeChar v ++ utf8Encode s := by
      simp [utf8Encode]
    rw [henc, utf8DecodeLoop_encodeChar v h.1,
      ih (i + (utf8EncodeChar v).length) (v :: acc) h.2]
    simp

/-- Decoding inverts encoding on any genuine text: `str::from_utf8` applied
to `String::into_bytes` recovers the string. -/
theorem utf8Decode_encode (s : List Nat) (h : validText s = true) :
    utf8Decode (utf8Encode s) = .ok s := by
  rw [utf8Decode, utf8DecodeLoop_encode s 0 [] h]
  simp

/-- `Protocol::from_bytes` on the bytes of a genuine text is `from_str` of its
whitespace tokens. -/
theorem fromBytes_encode (s : List Nat) (h : validText s = true) :
    Protocol.fromBytes (utf8Encode s) = Protocol.fromStr (splitWhitespace s) := by
  rw [Protocol.fromBytes, utf8Decode_encode s h]

lemma splitWSAux_nonws (tok : List Nat) :
    ∀ (cs cur : List Nat), (∀ c ∈ tok, isRustWhitespace c = false) →
      splitWSAux (tok ++ cs) cur = splitWSAux cs (tok.reverse ++ cur) := by
  induction tok with
  | nil => intro cs cur _; simp
  | cons c tok ih =>
    intro cs cur h
    simp only [List.mem_cons, forall_eq_or_imp] at h
    rw [List.cons_append, splitWSAux, if_neg (by simp [h.1]), ih cs (c :: cur) h.2]
    simp

/-- A nonempty whitespace-free token followed by a whitespace character is
split off as one token. -/
lemma splitWhitespace_token_cons (tok : List Nat) (c : Nat) (cs : List Nat)
    (hne : tok ≠ []) (hws : ∀ d ∈ tok, isRustWhitespace d = false)
    (hc : isRustWhitespace c = true) :
    splitWhitespace (tok ++ c :: cs) = tok :: splitWhitespace cs := by
  rw [splitWhitespace, splitWSAux_nonws tok (c :: cs) [] hws]
  rw [splitWSAux, if_pos hc, if_neg (by simp [hne]), splitWhitespace]
  simp

/-- A nonempty whitespace-free token at the end of the text is the last token. -/
lemma splitWhitespace_token_nil (tok : List Nat)
    (hne : tok ≠ []) (hws : ∀ d ∈ tok, isRustWhitespace d = false) :
    splitWhitespace tok = [tok] := by
  have h := splitWSAux_nonws tok [] [] hws
  rw [List.append_nil] at h
  rw [splitWhitespace, h, splitWSAux, if_neg (by simp [hne])]
  simp

lemma splitWhitespace_ws_cons (c : Nat) (cs : List Nat) (hc : isRustWhitespace c = true) :
    splitWhitespace (c :: cs) = splitWhitespace cs := by
  rw [splitWhitespace, splitWSAux, if_pos hc, if_pos rfl, splitWhitespace]

lemma trimEnd_ws_snoc (s : List Nat) (w : Nat) (hw : isRustWhitespace w = true) :
    trimEnd (s ++ [w]) = trimEnd s := by
  simp [trimEnd, hw]

lemma trimEnd_nonws_snoc (s : List Nat) (d : Nat) (hd : isRustWhitespace d = false) :
    trimEnd (s ++ [d]) = s ++ [d] := by
  simp [trimEnd, hd]

example : splitWhitespace (str "  OP  ADD  5 ") = [str "OP", str "ADD", str "5"] := by decide

example : trimEnd (str "OP ADD 5 \n") = str "OP ADD 5" := by decide

lemma fromStr_op (t1 t2 : List Nat) :
    Protocol.fromStr [str "OP", t1, t2] = Protocol.Operation (t1 ++ str " " ++ t2) := rfl

lemma fromStr_error_keyword (rest : List (List Nat)) :
    Protocol.fromStr (str "ERROR" :: rest) = Protocol.ErrorOperation (joinSpace rest) := rfl

lemma fromStr_value (t : List Nat) :
    Protocol.fromStr [str "VALUE", t] = Protocol.Value t := rfl

lemma fromStr_other (ts : List (List Nat))
    (hop : ∀ t1 t2, ts ≠ [str "OP", t1, t2])
    (hget : ts ≠ [str "GET"]) (hok : ts ≠ [str "OK"])
    (herr : ∀ r, ts ≠ str "ERROR" :: r)
    (hval : ∀ t, ts ≠ [str "VALUE", t]) :
    Protocol.fromStr ts = Protocol.SynthaxError (joinSpace ts) := by
  rcases ts with _ | ⟨t, rest⟩
  · rfl
  · have hOP : ¬(t = str "OP" ∧ rest.length = 2) := by
      rintro ⟨rfl, hlen⟩
      rcases rest with _ | ⟨a, _ | ⟨b, _ | _⟩⟩ <;> simp at hlen
      exact hop a b rfl
    have hGET : ¬(t = str "GET" ∧ rest = []) := by
      rintro ⟨rfl, rfl⟩; exact hget rfl
    have hOK : ¬(t = str "OK" ∧ rest = []) := by
      rintro ⟨rfl, rfl⟩; exact hok rfl
    have hERR : ¬(t = str "ERROR") := by
      rintro rfl; exact herr rest rfl
    rcases rest with _ | ⟨a, rest2⟩
    · unfold Protocol.fromStr
      dsimp only
      rw [if_neg hOP, if_neg hGET, if_neg hOK, if_neg hERR]
    · rcases rest2 with _ | ⟨b, rest3⟩
      · have hVAL : ¬(t = str "VALUE") := by rintro rfl; exact hval a rfl
        unfold Protocol.fromStr
        dsimp only
        rw [if_neg hOP, if_neg hGET, if_neg hOK, if_neg hERR, if_neg hVAL]
      · unfold Protocol.fromStr
        dsimp only
        rw [if_neg hOP, if_neg hGET, if_neg hOK, if_neg hERR]

/-- C3: decode is total over byte sequences (it is a Lean function), invalid
UTF-8 yields `SynthaxError` carrying the decode-failure description, and on
valid text the token-shape mapping claimed by the spec holds with one
correction: the operation keyword is `OP`, not `OPERATION` (see the
counterexample); the catch-all case carries the whitespace-joined tokens. -/
theorem C3_decode_total_mapping :
    (∀ bytes e, utf8Decode bytes = .error e →
      Protocol.fromBytes bytes = Protocol.SynthaxError e) ∧
    (∀ bytes msg t1 t2, utf8Decode bytes = .ok msg →
      splitWhitespace msg = [str "OP", t1, t2] →
      Protocol.fromBytes bytes = Protocol.Operation (t1 ++ str " " ++ t2)) ∧
    (∀ bytes msg, utf8Decode bytes = .ok msg → splitWhitespace msg = [str "GET"] →
      Protocol.fromBytes bytes = Protocol.Get) ∧
    (∀ bytes msg, utf8Decode bytes = .ok msg → splitWhitespace msg = [str "OK"] →
      Protocol.fromBytes bytes = Protocol.Ok) ∧
    (∀ bytes msg rest, utf8Decode bytes = .ok msg →
      splitWhitespace msg = str "ERROR" :: rest →
      Protocol.fromBytes bytes = Protocol.ErrorOperation (joinSpace rest)) ∧
    (∀ bytes msg t, utf8Decode bytes = .ok msg → splitWhitespace msg = [str "VALUE", t] →
      Protocol.fromBytes bytes = Protocol.Value t) ∧
    (∀ bytes msg, utf8Decode bytes = .ok msg →
      (∀ t1 t2, splitWhitespace msg ≠ [str "OP", t1, t2]) →
      splitWhitespace msg ≠ [str "GET"] → splitWhitespace msg ≠ [str "OK"] →
      (∀ r, splitWhitespace msg ≠ str "ERROR" :: r) →
      (∀ t, splitWhitespace msg ≠ [str "VALUE", t]) →
      Protocol.fromBytes bytes = Protocol.SynthaxError (joinSpace (splitWhitespace msg))) := by
  refine ⟨fun bytes e hd => ?_, fun bytes msg t1 t2 hd hsp => ?_,
    fun bytes msg hd hsp => ?_, fun bytes msg hd hsp => ?_,
    fun bytes msg rest hd hsp => ?_, fun bytes msg t hd hsp => ?_,
    fun bytes msg hd h1 h2 h3 h4 h5 => ?_⟩
  · rw [Protocol.fromBytes, hd]
  · rw [Protocol.fromBytes, hd]; dsimp only; rw [hsp, fromStr_op]
  · rw [Protocol.fromBytes, hd]; dsimp only; rw [hsp]; rfl
  · rw [Protocol.fromBytes, hd]; dsimp only; rw [hsp]; rfl
  · rw [Protocol.fromBytes, hd]; dsimp only; rw [hsp, fromStr_error_keyword]
  · rw [Protocol.fromBytes, hd]; dsimp only; rw [hsp, fromStr_value]
  · rw [Protocol.fromBytes, hd]; dsimp only; rw [fromStr_other _ h1 h2 h3 h4 h5]

/-- C3, counterexample to the claim as stated: the line `OPERATION + 1`
decodes to `SynthaxError`, not to an operation request. -/
theorem C3_counterexample :
    Protocol.fromBytes (utf8Encode (str "OPERATION + 1")) =
      Protocol.SynthaxError (str "OPERATION + 1") ∧
    Protocol.fromBytes (utf8Encode (str "OPERATION + 1")) ≠
      Protocol.Operation (str "+ 1") := by decide

theorem C3_decode_total_mapping_witness :
    Protocol.fromBytes (utf8Encode (str "OP + 1")) =
      Protocol.Operation (str "+" ++ str " " ++ str "1") ∧
    Protocol.fromBytes [0xFF] = Protocol.SynthaxError (msgUtf8Invalid 1 0) := by
  constructor
  · exact C3_decode_total_mapping.2.1 (utf8Encode (str "OP + 1")) (str "OP + 1")
      (str "+") (str "1") (by decide) (by decide)
  · exact C3_decode_total_mapping.1 [0xFF] (msgUtf8Invalid 1 0) (by decide)

lemma niceToken_parts (t : List Nat) (h : niceToken t = true) :
    t ≠ [] ∧ (∀ c ∈ t, isRustWhitespace c = false) ∧ validText t = true := by
  simp only [niceToken, Bool.and_eq_true, Bool.not_eq_true', List.all_eq_true] at h
  obtain ⟨hne, hall⟩ := h
  refine ⟨?_, fun c hc => (hall c hc).1, ?_⟩
  · intro hnil; subst hnil; simp [List.isEmpty] at hne
  · simp only [validText, List.all_eq_true]
    exact fun c hc => (hall c hc).2

lemma validText_append (a b : List Nat) :
    validText (a ++ b) = (validText a && validText b) := by
  simp [validText, List.all_append]

lemma roundtrip_operation (t1 t2 : List Nat)
    (h1 : niceToken t1 = true) (h2 : niceToken t2 = true) :
    Protocol.fromBytes (Protocol.toBytes (Protocol.Operation (t1 ++ str " " ++ t2))) =
      Protocol.Operation (t1 ++ str " " ++ t2) := by
  obtain ⟨hne1, hws1, hv1⟩ := niceToken_parts t1 h1
  obtain ⟨hne2, hws2, hv2⟩ := niceToken_parts t2 h2
  have hshape : str "OP " ++ (t1 ++ str " " ++ t2) ++ str "\n" =
      str "OP" ++ 32 :: (t1 ++ 32 :: (t2 ++ [10])) := by
    rw [show str "OP " = str "OP" ++ [32] from by decide,
      show str " " = [32] from by decide, show str "\n" = [10] from by decide]
    simp [List.append_assoc]
  have hvt : validText (str "OP " ++ (t1 ++ str " " ++ t2) ++ str "\n") = true := by
    simp [validText_append, hv1, hv2,
      show validText (str "OP ") = true from by decide,
      show validText (str " ") = true from by decide,
      show validText (str "\n") = true from by decide]
  rw [show Protocol.toBytes (Protocol.Operation (t1 ++ str " " ++ t2)) =
      utf8Encode (str "OP " ++ (t1 ++ str " " ++ t2) ++ str "\n") from rfl]
  rw [fromBytes_encode _ hvt, hshape]
  rw [splitWhitespace_token_cons (str "OP") 32 (t1 ++ 32 :: (t2 ++ [10]))
    (by decide) (by decide) (by decide)]
  rw [splitWhitespace_token_cons t1 32 (t2 ++ [10]) hne1 hws1 (by decide)]
  rw [splitWhitespace_token_cons t2 10 [] hne2 hws2 (by decide)]
  rw [show splitWhitespace ([] : List Nat) = [] from rfl, fromStr_op]

lemma roundtrip_value (t : List Nat) (h : niceToken t = true) :
    Protocol.fromBytes (Protocol.toBytes (Protocol.Value t)) = Protocol.Value t := by
  obtain ⟨hne, hws, hv⟩ := niceToken_parts t h
  have hshape : str "VALUE " ++ t ++ str "\n" = str "VALUE" ++ 32 :: (t ++ [10]) := by
    rw [show str "VALUE " = str "VALUE" ++ [32] from by decide,
      show str "\n" = [10] from by decide]
    simp [List.append_assoc]
  have hvt : validText (str "VALUE " ++ t ++ str "\n") = true := by
    simp [validText_append, hv,
      show validText (str "VALUE ") = true from by decide,
      show validText (str "\n") = true from by decide]
  rw [show Protocol.toBytes (Protocol.Value t) =
      utf8Encode (str "VALUE " ++ t ++ str "\n") from rfl]
  rw [fromBytes_encode _ hvt, hshape]
  rw [splitWhitespace_token_cons (str "VALUE") 32 (t ++ [10]) (by decide) (by decide) (by decide)]
  rw [splitWhitespace_token_cons t 10 [] hne hws (by decide)]
  rw [show splitWhitespace ([] : List Nat) = [] from rfl, fromStr_value]

lemma roundtrip_error_quoted (t : List Nat) (h : niceToken t = true) :
    Protocol.fromBytes (Protocol.toBytes (Protocol.ErrorOperation t)) =
      Protocol.ErrorOperation (str "\"" ++ t ++ str "\"") := by
  obtain ⟨hne, hws, hv⟩ := niceToken_parts t h
  have hshape : str "ERROR \"" ++ t ++ str "\"\n" =
      str "ERROR" ++ 32 :: ((34 :: t ++ [34]) ++ 10 :: []) := by
    rw [show str "ERROR \"" = str "ERROR" ++ [32, 34] from by decide,
      show str "\"\n" = [34, 10] from by decide]
    simp [List.append_assoc]
  have hvt : validText (str "ERROR \"" ++ t ++ str "\"\n") = true := by
    simp [validText_append, hv,
      show validText (str "ERROR \"") = true from by decide,
      show validText (str "\"\n") = true from by decide]
  rw [show Protocol.toBytes (Protocol.ErrorOperation t) =
      utf8Encode (str "ERROR \"" ++ t ++ str "\"\n") from rfl]
  rw [fromBytes_encode _ hvt, hshape]
  rw [splitWhitespace_token_cons (str "ERROR") 32 ((34 :: t ++ [34]) ++ 10 :: [])
    (by decide) (by decide) (by decide)]
  rw [splitWhitespace_token_cons (34 :: t ++ [34]) 10 [] (by simp)
    ?_ (by decide)]
  · rw [show splitWhitespace ([] : List Nat) = [] from rfl, fromStr_error_keyword]
    have : joinSpace [34 :: t ++ [34]] = str "\"" ++ t ++ str "\"" := by
      rw [show str "\"" = [34] from by decide]
      simp [joinSpace]
    rw [this]
  · intro d hd
    simp only [List.cons_append, List.mem_cons, List.mem_append] at hd
    rcases hd with rfl | hd
    · decide
    · rcases hd with hd | hd
      · exact hws d hd
      · simp at hd; subst hd; decide

/-- C4: decode after encode recovers `Get` and `Ok` always, and operation
and value messages whose payloads are canonical (the right number of
nonempty whitespace-free tokens joined by single spaces); an `ErrorOperation`
payload is recovered only with an added pair of surrounding double quotes, so
the claimed roundtrip fails for that variant (see the counterexample). -/
theorem C4_roundtrip_amended :
    Protocol.fromBytes (Protocol.toBytes Protocol.Get) = Protocol.Get ∧
    Protocol.fromBytes (Protocol.toBytes Protocol.Ok) = Protocol.Ok ∧
    (∀ t1 t2, niceToken t1 = true → niceToken t2 = true →
      Protocol.fromBytes (Protocol.toBytes (Protocol.Operation (t1 ++ str " " ++ t2))) =
        Protocol.Operation (t1 ++ str " " ++ t2)) ∧
    (∀ t, niceToken t = true →
      Protocol.fromBytes (Protocol.toBytes (Protocol.Value t)) = Protocol.Value t) ∧
    (∀ t, niceToken t = true →
      Protocol.fromBytes (Protocol.toBytes (Protocol.ErrorOperation t)) =
        Protocol.ErrorOperation (str "\"" ++ t ++ str "\"")) :=
  ⟨by decide, by decide, roundtrip_operation, roundtrip_value, roundtrip_error_quoted⟩

/-- C4, counterexample to the claim as stated: the error variant does not
roundtrip — the payload `x` comes back as `"x"`. -/
theorem C4_counterexample :
    Protocol.fromBytes (Protocol.toBytes (Protocol.ErrorOperation (str "x"))) =
      Protocol.ErrorOperation (str "\"x\"") ∧
    Protocol.fromBytes (Protocol.toBytes (Protocol.ErrorOperation (str "x"))) ≠
      Protocol.ErrorOperation (str "x") := by decide

theorem C4_roundtrip_amended_witness :
    Protocol.fromBytes (Protocol.toBytes (Protocol.Operation (str "+" ++ str " " ++ str "7"))) =
      Protocol.Operation (str "+" ++ str " " ++ str "7") ∧
    Protocol.fromBytes (Protocol.toBytes (Protocol.Value (str "9"))) = Protocol.Value (str "9") :=
  ⟨C4_roundtrip_amended.2.2.1 (str "+") (str "7") (by decide) (by decide),
   C4_roundtrip_amended.2.2.2.1 (str "9") (by decide)⟩

/-- C7: any decoded kind other than an operation or a get request is answered
with `ErrorOperation` of "unexpected message: " followed by the re-serialized
Display text of the decoded message (for a syntax-error line such as `hola`
this equals the whitespace-joined line text, as the spec's example says, but
for other variants it is the re-serialized keyword form, newline included —
see the counterexample); the accumulator is untouched and the loop continues
with the remaining lines. -/
theorem C7_unexpected_message (c : SharedCalc) (line : List Nat) (rest : List (List Nat))
    (hop : ∀ args, Protocol.fromBytes (utf8Encode (trimEnd line)) ≠ Protocol.Operation args)
    (hget : Protocol.fromBytes (utf8Encode (trimEnd line)) ≠ Protocol.Get) :
    handleLine c line = .ok (c, Protocol.ErrorOperation (str "unexpected message: " ++
        (Protocol.fromBytes (utf8Encode (trimEnd line))).display)) ∧
    handle_connection c (line :: rest) =
      ((Protocol.ErrorOperation (str "unexpected message: " ++
          (Protocol.fromBytes (utf8Encode (trimEnd line))).display)) ::
        (handle_connection c rest).1, (handle_connection c rest).2) ∧
    handleLine c (str "hola\n") =
      .ok (c, Protocol.ErrorOperation (str "unexpected message: hola")) := by
  have hl : handleLine c line = .ok (c, Protocol.ErrorOperation (str "unexpected message: " ++
      (Protocol.fromBytes (utf8Encode (trimEnd line))).display)) := by
    rcases hp : Protocol.fromBytes (utf8Encode (trimEnd line)) with args | _ | _ | args | v | m
    · exact absurd hp (hop args)
    · exact absurd hp hget
    all_goals rw [handleLine, hp]
  refine ⟨hl, ?_, ?_⟩
  · rw [handle_connection, hl]
  · have h : Protocol.fromBytes (utf8Encode (trimEnd (str "hola\n"))) =
        Protocol.SynthaxError (str "hola") := by decide
    rw [handleLine, h]
    have h2 : str "unexpected message: " ++ (Protocol.SynthaxError (str "hola")).display =
        str "unexpected message: hola" := by decide
    dsimp only
    rw [h2]

/-- C7, counterexample to the claim as stated: for the received line
`ERROR boom` the handler's reply text re-serializes the decoded message
(quotes added, trailing newline), which differs from
"unexpected message: " + the original line text (raw or trimmed). -/
theorem C7_counterexample :
    handleLine ⟨false, 0⟩ (str "ERROR boom\n") =
      .ok (⟨false, 0⟩, Protocol.ErrorOperation (str "unexpected message: ERROR \"boom\"\n")) ∧
    str "unexpected message: ERROR \"boom\"\n" ≠
      str "unexpected message: " ++ str "ERROR boom\n" ∧
    str "unexpected message: ERROR \"boom\"\n" ≠
      str "unexpected message: " ++ str "ERROR boom" := by decide

theorem C7_unexpected_message_witness :
    handleLine ⟨false, 0⟩ (str "VALUE 5\n") =
      .ok (⟨false, 0⟩, Protocol.ErrorOperation (str "unexpected message: VALUE 5\n")) := by
  have hv : Protocol.fromBytes (utf8Encode (trimEnd (str "VALUE 5\n"))) =
      Protocol.Value (str "5") := by decide
  have h := C7_unexpected_message ⟨false, 0⟩ (str "VALUE 5\n") []
    (by intro args hq; rw [hv] at hq; exact Protocol.noConfusion hq)
    (by intro hq; rw [hv] at hq; exact Protocol.noConfusion hq)
  rw [h.1]
  decide

set_option maxHeartbeats 2000000 in
set_option maxRecDepth 10000 in
lemma wire_parse_add : ∀ n, n < 256 →
    Protocol.fromBytes (utf8Encode (trimEnd (wireLine (Operation.Add n)))) =
      Protocol.Operation (opArgs (Operation.Add n)) ∧
    Operation.fromStr (opArgs (Operation.Add n)) = .ok (Operation.Add n) := by decide

set_option maxHeartbeats 2000000 in
set_option maxRecDepth 10000 in
lemma wire_parse_sub : ∀ n, n < 256 →
    Protocol.fromBytes (utf8Encode (trimEnd (wireLine (Operation.Sub n)))) =
      Protocol.Operation (opArgs (Operation.Sub n)) ∧
    Operation.fromStr (opArgs (Operation.Sub n)) = .ok (Operation.Sub n) := by decide

set_option maxHeartbeats 2000000 in
set_option maxRecDepth 10000 in
lemma wire_parse_mul : ∀ n, n < 256 →
    Protocol.fromBytes (utf8Encode (trimEnd (wireLine (Operation.Mul n)))) =
      Protocol.Operation (opArgs (Operation.Mul n)) ∧
    Operation.fromStr (opArgs (Operation.Mul n)) = .ok (Operation.Mul n) := by decide

set_option maxHeartbeats 2000000 in
set_option maxRecDepth 10000 in
lemma wire_parse_div : ∀ n, n < 256 → n ≠ 0 →
    Protocol.fromBytes (utf8Encode (trimEnd (wireLine (Operation.Div n)))) =
      Protocol.Operation (opArgs (Operation.Div n)) ∧
    Operation.fromStr (opArgs (Operation.Div n)) = .ok (Operation.Div n) := by decide

lemma wire_parse (op : Operation) (h : validOp op = true) :
    Protocol.fromBytes (utf8Encode (trimEnd (wireLine op))) = Protocol.Operation (opArgs op) ∧
    Operation.fromStr (opArgs op) = .ok op := by
  cases op with
  | Add n => exact wire_parse_add n (by simpa [validOp] using h)
  | Sub n => exact wire_parse_sub n (by simpa [validOp] using h)
  | Mul n => exact wire_parse_mul n (by simpa [validOp] using h)
  | Div n =>
    simp only [validOp, Bool.and_eq_true, decide_eq_true_eq] at h
    exact wire_parse_div n h.1 h.2

/-- Receiving the wire line of a valid operation on an unpoisoned handle
applies exactly that operation and replies `OK`. -/
lemma handleLine_wire (a : Nat) (op : Operation) (h : validOp op = true) :
    handleLine ⟨false, a⟩ (wireLine op) =
      .ok (⟨false, Calculator.apply a op⟩, Protocol.Ok) := by
  obtain ⟨h1, h2⟩ := wire_parse op h
  rw [handleLine, h1]
  simp [handle_operation_message, h2, apply_operation]

lemma handle_connection_wire (ops : List Operation) :
    ∀ a : Nat, (∀ op ∈ ops, validOp op = true) →
      handle_connection ⟨false, a⟩ (ops.map wireLine) =
        (ops.map (fun _ => Protocol.Ok), .ok ⟨false, ops.foldl Calculator.apply a⟩) := by
  induction ops with
  | nil => intro a _; simp [handle_connection]
  | cons op ops ih =>
    intro a h
    rw [List.map_cons, handle_connection, handleLine_wire a op (h op (by simp))]
    dsimp only
    rw [ih (Calculator.apply a op) (fun o ho => h o (by simp [ho]))]
    simp

/-- C1: claimed — on a fresh server, the lines `OPERATION + 1\n` then `GET\n`
receive `OK\n` then `VALUE 1\n`. The embedded code instead answers the first
line with `ERROR "unexpected message: OPERATION + 1"` and the second with
`VALUE 0`, because `Protocol::from_str` only recognizes the keyword `OP`; the
`OP`-spelled exchange does behave as claimed. -/
theorem C1_fresh_server_scenario :
    handle_connection ⟨false, 0⟩ [str "OPERATION + 1\n", str "GET\n"] =
      ([Protocol.ErrorOperation (str "unexpected message: OPERATION + 1"),
        Protocol.Value (str "0")], .ok ⟨false, 0⟩) ∧
    handle_connection ⟨false, 0⟩ [str "OP + 1\n", str "GET\n"] =
      ([Protocol.Ok, Protocol.Value (str "1")], .ok ⟨false, 1⟩) := by
  exact ⟨by decide, by decide⟩

/-- C2: replaying any finite sequence of valid operations (u8 operands,
non-zero divisors) through the connection handler from a fresh accumulator
answers `OK` to each and leaves the same final value as folding
`Calculator::apply` directly; in particular 250 then `+ 10` wraps to 4. -/
theorem C2_replay_equals_fold (ops : List Operation)
    (h : ∀ op ∈ ops, validOp op = true) :
    handle_connection ⟨false, 0⟩ (ops.map wireLine) =
      (ops.map (fun _ => Protocol.Ok), .ok ⟨false, ops.foldl Calculator.apply 0⟩) ∧
    Calculator.apply 250 (Operation.Add 10) = 4 :=
  ⟨handle_connection_wire ops 0 h, by decide⟩

theorem C2_replay_equals_fold_witness :
    handle_connection ⟨false, 0⟩ ([Operation.Add 250, Operation.Add 10].map wireLine) =
      ([Protocol.Ok, Protocol.Ok], .ok ⟨false, 4⟩) ∧
    Calculator.apply 250 (Operation.Add 10) = 4 := by
  have h := C2_replay_equals_fold [Operation.Add 250, Operation.Add 10] (by decide)
  exact ⟨by rw [h.1]; decide, h.2⟩

/-- C5: claimed — `OPERATION / 0` always yields an `ErrorResponse` containing
"division by zero" with the accumulator untouched. In the embedded code the
line `OPERATION / 0` is not recognized (keyword is `OP`) and is answered with
`ERROR "unexpected message: OPERATION / 0"`; the `OP / 0` spelling does yield
exactly `division by zero`, raised by `Operation::from_str` before any `Div`
is constructed, and in both cases the state is unchanged for every state. -/
theorem C5_div_zero_behavior :
    (∀ c : SharedCalc, handleLine c (str "OPERATION / 0\n") =
      .ok (c, Protocol.ErrorOperation (str "unexpected message: OPERATION / 0"))) ∧
    (∀ c : SharedCalc, handleLine c (str "OP / 0\n") =
      .ok (c, Protocol.ErrorOperation (str "division by zero"))) ∧
    Operation.fromStr (str "/ 0") = .error (str "division by zero") := by
  refine ⟨fun c => ?_, fun c => ?_, by decide⟩
  · have h : Protocol.fromBytes (utf8Encode (trimEnd (str "OPERATION / 0\n"))) =
        Protocol.SynthaxError (str "OPERATION / 0") := by decide
    rw [handleLine, h]
    have h2 : str "unexpected message: " ++
        (Protocol.SynthaxError (str "OPERATION / 0")).display =
        str "unexpected message: OPERATION / 0" := by decide
    dsimp only
    rw [h2]
  · have h : Protocol.fromBytes (utf8Encode (trimEnd (str "OP / 0\n"))) =
        Protocol.Operation (str "/ 0") := by decide
    rw [handleLine, h]
    have h2 : Operation.fromStr (str "/ 0") = .error (str "division by zero") := by decide
    dsimp only
    rw [handle_operation_message, h2]

/-- C6: claimed — `OPERATION + 300` is answered with the verbatim overflow
text and a fresh server's subsequent `GET` returns `VALUE 0`. The embedded
code answers `ERROR "unexpected message: OPERATION + 300"` (keyword is `OP`);
with `OP + 300` the response carries the verbatim
`number too large to fit in target type` text; in both cases `GET` then
returns `VALUE 0`. -/
theorem C6_overflow_scenario :
    handle_connection ⟨false, 0⟩ [str "OPERATION + 300\n", str "GET\n"] =
      ([Protocol.ErrorOperation (str "unexpected message: OPERATION + 300"),
        Protocol.Value (str "0")], .ok ⟨false, 0⟩) ∧
    handle_connection ⟨false, 0⟩ [str "OP + 300\n", str "GET\n"] =
      ([Protocol.ErrorOperation
          (str "parsing error: invalid integer: number too large to fit in target type"),
        Protocol.Value (str "0")], .ok ⟨false, 0⟩) := by
  exact ⟨by decide, by decide⟩

/-- C8: once the lock is poisoned, every `apply_operation` and `get_value`
fails fast with `ServerError::PoisonError` (no value is returned or
committed), every dispatched request that reaches the accumulator turns the
handler fatal, and the connection loop terminates with that error, answering
nothing further. -/
theorem C8_poisoned_lock_fails_fast (c : SharedCalc) (h : c.poisoned = true) :
    (∀ op, apply_operation c op = .error ServerError.PoisonError) ∧
    get_value c = .error ServerError.PoisonError ∧
    (∀ args op, Operation.fromStr args = .ok op →
      handle_operation_message c args = .error ServerError.PoisonError) ∧
    handle_get_message c = .error ServerError.PoisonError ∧
    (∀ rest, handle_connection c (str "GET\n" :: rest) =
      ([], .error ServerError.PoisonError)) := by
  refine ⟨fun op => by simp [apply_operation, h],
    by simp [get_value, h], fun args op hp => ?_, ?_, fun rest => ?_⟩
  · rw [handle_operation_message, hp]
    simp [apply_operation, h]
  · simp [handle_get_message, get_value, h]
  · have hg : Protocol.fromBytes (utf8Encode (trimEnd (str "GET\n"))) = Protocol.Get := by
      decide
    rw [handle_connection, handleLine, hg]
    simp [handle_get_message, get_value, h]

theorem C8_poisoned_lock_fails_fast_witness :
    get_value ⟨true, 0⟩ = .error ServerError.PoisonError ∧
    handle_connection ⟨true, 0⟩ [str "GET\n"] = ([], .error ServerError.PoisonError) := by
  have h := C8_poisoned_lock_fails_fast ⟨true, 0⟩ rfl
  exact ⟨h.2.1, h.2.2.2.2 []⟩

/-- C9: a `GET` reads the accumulator without mutating any state, so two
consecutive `GET` requests with no operation in between produce the same
`VALUE` text and leave the state exactly as it was. -/
theorem C9_consecutive_gets_identical (c : SharedCalc) (h : c.poisoned = false) :
    handle_connection c [str "GET\n", str "GET\n"] =
      ([Protocol.Value (natDigits c.accumulation),
        Protocol.Value (natDigits c.accumulation)], .ok c) ∧
    handleLine c (str "GET\n") = .ok (c, Protocol.Value (natDigits c.accumulation)) := by
  have hg : Protocol.fromBytes (utf8Encode (trimEnd (str "GET\n"))) = Protocol.Get := by
    decide
  have hl : handleLine c (str "GET\n") = .ok (c, Protocol.Value (natDigits c.accumulation)) := by
    rw [handleLine, hg]
    simp [handle_get_message, get_value, h]
  refine ⟨?_, hl⟩
  rw [handle_connection, hl]
  dsimp only
  rw [handle_connection, hl]
  dsimp only
  rw [handle_connection]

theorem C9_consecutive_gets_identical_witness :
    handle_connection ⟨false, 42⟩ [str "GET\n", str "GET\n"] =
      ([Protocol.Value (str "42"), Protocol.Value (str "42")], .ok ⟨false, 42⟩) := by
  have h := C9_consecutive_gets_identical ⟨false, 42⟩ rfl
  rw [h.1]
  decide

/-- C10: whenever `Operation::from_str` succeeds, the produced operation is
never `Div(0)` (the parser fails with "division by zero" first), so the
unguarded `wrapping_div` inside `Calculator::apply` is never reached with a
zero divisor by parser-produced operations. -/
theorem C10_parser_never_div_zero (s : List Nat) (op : Operation)
    (h : Operation.fromStr s = .ok op) : op ≠ Operation.Div 0 := by
  unfold Operation.fromStr at h
  rcases hsp : splitWhitespace s with _ | ⟨o, rest⟩
  · rw [hsp] at h; simp at h
  · rcases rest with _ | ⟨a, rest2⟩
    · rw [hsp] at h; simp at h
    · rcases rest2 with _ | ⟨b, rest3⟩
      · rw [hsp] at h
        dsimp only at h
        rcases hp : parseU8 a with e | n <;> rw [hp] at h <;> dsimp only at h
        · simp at h
        · split_ifs at h with h1 h2 h3 h4 h5
          all_goals first
            | exact Except.noConfusion h
            | (rw [Except.ok.injEq] at h; subst h; simp_all)
      · rw [hsp] at h; simp at h

theorem C10_parser_never_div_zero_witness :
    Operation.fromStr (str "/ 3") = .ok (Operation.Div 3) ∧
    Operation.Div 3 ≠ Operation.Div 0 :=
  ⟨by decide, C10_parser_never_div_zero (str "/ 3") (Operation.Div 3) (by decide)⟩
